import Mathlib

set_option maxRecDepth 4000

/-!
Shallow embedding of the rhyme engine of scoremybars
(`src/utils/rhyme_engine.py`, class `RhymeEngine`).

Words, lines and texts are lists of characters; Python floats that arise
as ratios of integer counters are modelled as rationals.  Every function
below is a direct translation of the corresponding Python method; the
`?`-suffixed variants additionally model the places where Python could
raise (division, list indexing) by returning `Option`.
-/

/-- Characters stripped by `strip('.,!?;:()[]') ∪ braces` in the source
(the Python literal also includes the two curly braces). -/
def punct_chars : List Char := ['.', ',', '!', '?', ';', ':', '(', ')', '[', ']', Char.ofNat 123, Char.ofNat 125]

/-- Whitespace characters recognised by Python `str.strip()` / `str.split()`
for ASCII text: space, tab, newline, carriage return, vertical tab, form feed. -/
def ws_chars : List Char := [' ', '\t', '\n', '\r', Char.ofNat 11, Char.ofNat 12]

def is_whitespace (c : Char) : Bool := ws_chars.contains c

/-- Python `str.strip(chars)`: drop characters satisfying `p` from both ends. -/
def strip_while (p : Char → Bool) (w : List Char) : List Char :=
  ((w.dropWhile p).reverse.dropWhile p).reverse

def strip_punct (w : List Char) : List Char := strip_while (punct_chars.contains ·) w

def strip_ws (w : List Char) : List Char := strip_while is_whitespace w

/-- Python `str.lower()` (ASCII case folding). -/
def lower (w : List Char) : List Char := w.map Char.toLower

/-- Python `word.lower().strip('.,!?;:()[]...')` as used throughout the engine. -/
def clean_word (w : List Char) : List Char := strip_punct (lower w)

/-- Python `line.split()`: split on whitespace runs, dropping empty tokens. -/
def split_words (l : List Char) : List (List Char) :=
  (l.splitOnP is_whitespace).filter (fun w => !w.isEmpty)

/-- Python `[line.strip() for line in text.split('\n') if line.strip()]`
(first line of `analyze_rhymes`). -/
def split_lines (text : List Char) : List (List Char) :=
  ((text.splitOn '\n').map strip_ws).filter (fun l => !l.isEmpty)

/-- Python `str.endswith`: `ends_with w s` iff `s` is a suffix of `w`. -/
def ends_with (w s : List Char) : Bool := List.isSuffixOf s w

/-- The `self.rhyme_patterns` dictionary from `RhymeEngine.__init__`.  The
Python literal repeats several keys; repeated assignment to the same key
leaves a dict with these 15 entries in first-insertion order. -/
def rhyme_patterns : List (List Char × List (List Char)) :=
  [ ("ing".toList, ["ing".toList, "in".toList, "im".toList]),
    ("er".toList, ["er".toList, "ir".toList, "ur".toList]),
    ("ed".toList, ["ed".toList, "d".toList, "t".toList]),
    ("s".toList, ["s".toList, "z".toList, "es".toList]),
    ("ly".toList, ["ly".toList, "lee".toList, "li".toList]),
    ("tion".toList, ["tion".toList, "sion".toList, "cion".toList]),
    ("able".toList, ["able".toList, "ible".toList]),
    ("ous".toList, ["ous".toList, "us".toList]),
    ("al".toList, ["al".toList, "el".toList, "il".toList, "ol".toList, "ul".toList]),
    ("ate".toList, ["ate".toList, "it".toList, "et".toList]),
    ("ize".toList, ["ize".toList, "ise".toList, "yze".toList]),
    ("ment".toList, ["ment".toList, "mint".toList]),
    ("ness".toList, ["ness".toList, "nis".toList]),
    ("ful".toList, ["ful".toList, "full".toList]),
    ("less".toList, ["less".toList, "les".toList]) ]

/-- The "common rhyme patterns" loop of `_words_rhyme` (lines 281-286). -/
def patterns_match (a b : List Char) : Bool :=
  rhyme_patterns.any (fun pv =>
    (ends_with a pv.1 && ends_with b pv.1) ||
    pv.2.any (fun v => ends_with a v && ends_with b v))

/-- `self.vowels = 'aeiouAEIOU'`. -/
def vowels_str : List Char := "aeiouAEIOU".toList

/-- Vowel/consonant skeleton built inside `_similar_ending_pattern`. -/
def vc_pattern (e : List Char) : List Char :=
  e.map (fun c => if vowels_str.contains c then 'V' else 'C')

/-- `RhymeEngine._similar_ending_pattern`. -/
def similar_ending_pattern (e1 e2 : List Char) : Bool :=
  if e1.length = e2.length then vc_pattern e1 == vc_pattern e2 else false

/-- Python `w[-n:]` for `n ≤ len w`: the last `n` characters. -/
def last_n (n : ℕ) (w : List Char) : List Char := w.drop (w.length - n)

/-- `RhymeEngine._words_rhyme`: equality short-circuit on the raw arguments,
then cleaning, exact suffix containment, the pattern table, the last-3
vowel/consonant skeleton, and equal last 2/3/4 characters. -/
def words_rhyme (w1 w2 : List Char) : Bool :=
  if w1 = w2 then false
  else
    let a := clean_word w1
    let b := clean_word w2
    (ends_with a b || ends_with b a) ||
    patterns_match a b ||
    ((decide (3 ≤ a.length) && decide (3 ≤ b.length)) &&
      similar_ending_pattern (last_n 3 a) (last_n 3 b)) ||
    ([2, 3, 4].any (fun n =>
      decide (n ≤ a.length) && decide (n ≤ b.length) && (last_n n a == last_n n b)))

/-- One entry of `rhyme_pairs`: `(i, j, last_words[i], last_words[j])`. -/
abbrev EndPair := ℕ × ℕ × List Char × List Char

/-- The `last_words` extraction shared by `_analyze_end_rhymes`,
`_calculate_rhyme_density` and `_detect_rhyme_scheme`: for each line that
splits into at least one word, its last word lower-cased and stripped. -/
def last_words (lines : List (List Char)) : List (List Char) :=
  lines.filterMap (fun line => ((split_words line).getLast?).map clean_word)

/-- Inner loop `for j in range(i + 1, n)` collecting rhyming pairs. -/
def rhyme_pairs_inner (i : ℕ) (wi : List Char) : ℕ → List (List Char) → List EndPair
  | _, [] => []
  | j, wj :: rest =>
    (if words_rhyme wi wj then [(i, j, wi, wj)] else []) ++
      rhyme_pairs_inner i wi (j + 1) rest

/-- Outer loop `for i in range(n)` of the pair-finding scan. -/
def rhyme_pairs_aux : ℕ → List (List Char) → List EndPair
  | _, [] => []
  | i, w :: rest => rhyme_pairs_inner i w (i + 1) rest ++ rhyme_pairs_aux (i + 1) rest

/-- All rhyming index pairs `(i, j, w_i, w_j)` with `i < j`, in scan order
(lines 84-88 of the source, and the same loop shape inside
`_analyze_internal_rhymes`). -/
def rhyme_pairs (ws : List (List Char)) : List EndPair :=
  rhyme_pairs_aux 0 ws

/-- `words = line.lower().split()` then `strip` of punctuation, the per-line
word cleaning used by the internal/multi-syllabic/slant scans. -/
def clean_words (line : List Char) : List (List Char) :=
  (split_words (lower line)).map strip_punct

/-- `RhymeEngine._get_rhyme_key`: clean, then the last three characters
(or the whole word when shorter). -/
def get_rhyme_key (w : List Char) : List Char :=
  let w := clean_word w
  if 3 ≤ w.length then last_n 3 w else w

/-- Append `w` to the group's word list unless already present
(`if word not in rhyme_groups[rhyme_key]` in the source). -/
def insert_word (ws : List (List Char)) (w : List Char) : List (List Char) :=
  if w ∈ ws then ws else ws ++ [w]

/-- Update the (insertion-ordered) association list of rhyme groups with one
pair, mirroring the Python dict update in `_analyze_end_rhymes`. -/
def update_groups : List (List Char × List (List Char)) → List Char → List Char → List Char →
    List (List Char × List (List Char))
  | [], key, w1, w2 => [(key, insert_word (insert_word [] w1) w2)]
  | (k, ws) :: rest, key, w1, w2 =>
    if k = key then (k, insert_word (insert_word ws w1) w2) :: rest
    else (k, ws) :: update_groups rest key w1 w2

/-- The grouping loop over `rhyme_pairs` (lines 92-104). -/
def build_groups (pairs : List EndPair) : List (List Char × List (List Char)) :=
  pairs.foldl (fun gs p => update_groups gs (get_rhyme_key p.2.2.1) p.2.2.1 p.2.2.2) []

structure RhymeGroup where
  rhyme_key : List Char
  words : List (List Char)
deriving DecidableEq

structure EndRhymes where
  rhyme_groups : List RhymeGroup
  rhyme_pairs : List EndPair
  rhyme_density : ℚ
deriving DecidableEq

/-- `RhymeEngine._analyze_end_rhymes`. -/
def analyze_end_rhymes (lines : List (List Char)) : EndRhymes :=
  let lw := last_words lines
  let pairs := rhyme_pairs lw
  let groups := (build_groups pairs).map (fun kg => RhymeGroup.mk kg.1 kg.2)
  let density : ℚ :=
    if 1 < lines.length then
      (pairs.length : ℚ) / (((lines.length : ℚ) * ((lines.length : ℚ) - 1)) / 2)
    else 0
  EndRhymes.mk groups pairs density

structure InternalEntry where
  line_index : ℕ
  line : List Char
  rhymes : List EndPair
deriving DecidableEq

structure InternalRhymes where
  internal_rhyme_pairs : List InternalEntry
  internal_rhyme_density : ℚ
deriving DecidableEq

/-- The per-line scan of `_analyze_internal_rhymes`: an entry is produced
only when the line has at least one internal rhyming pair. -/
def internal_entries_aux : ℕ → List (List Char) → List InternalEntry
  | _, [] => []
  | li, line :: rest =>
    let rs := rhyme_pairs (clean_words line)
    (if rs.isEmpty then [] else [InternalEntry.mk li line rs]) ++
      internal_entries_aux (li + 1) rest

/-- `sum(len(line.split()) for line in lines)`. -/
def total_words (lines : List (List Char)) : ℕ :=
  (lines.map (fun l => (split_words l).length)).sum

/-- `RhymeEngine._analyze_internal_rhymes`. -/
def analyze_internal_rhymes (lines : List (List Char)) : InternalRhymes :=
  let entries := internal_entries_aux 0 lines
  let total : ℕ := (entries.map (fun e => e.rhymes.length)).sum
  let tw := total_words lines
  InternalRhymes.mk entries (if 1 < tw then (total : ℚ) / (tw : ℚ) else 0)

/-- Counters of one `for i / for j in range(i+1, n)` double loop:
`(total_rhymes, total_possible_rhymes)` contributions of a word list. -/
def pair_counts : List (List Char) → ℕ × ℕ
  | [] => (0, 0)
  | w :: rest =>
    let outer := pair_counts rest
    (rest.countP (fun wj => words_rhyme w wj) + outer.1, rest.length + outer.2)

/-- `RhymeEngine._calculate_rhyme_density`. -/
def calculate_rhyme_density (lines : List (List Char)) : ℚ :=
  if lines.isEmpty then 0
  else
    let cEnd := pair_counts (last_words lines)
    let cIn := lines.map (fun l => pair_counts (clean_words l))
    let totalR := cEnd.1 + (cIn.map (·.1)).sum
    let totalP := cEnd.2 + (cIn.map (·.2)).sum
    if totalP = 0 then 0 else (totalR : ℚ) / (totalP : ℚ)

/-- `chr(ord(c) + 1)` in the total model.  `Char.ofNat` is total and exact
only for codepoints that remain valid `Char`s; Python `chr` raises
`ValueError` at `0x110000` and also yields surrogate codepoints that Lean's
`Char` cannot carry, so the exception-aware scheme model below tracks raw
codepoints and models `chr` through `chr?` instead of this function. -/
def next_letter (c : Char) : Char := Char.ofNat (c.toNat + 1)

/-- The labelling loop of `_detect_rhyme_scheme`, carrying the processed
end words paired with their assigned labels (Python keeps the words in
`last_words[:i]` and the labels in `rhyme_scheme`, at equal indices). -/
def detect_scheme_aux : List (List Char) → List (List Char × Char) → Char → List Char
  | [], acc, _ => acc.map Prod.snd
  | w :: rest, acc, letter =>
    match acc.find? (fun p => words_rhyme w p.1) with
    | some p => detect_scheme_aux rest (acc ++ [(w, p.2)]) letter
    | none => detect_scheme_aux rest (acc ++ [(w, letter)]) (next_letter letter)

/-- `RhymeEngine._detect_rhyme_scheme`. -/
def detect_rhyme_scheme (lines : List (List Char)) : List Char :=
  if lines.length < 2 then ['A']
  else detect_scheme_aux (last_words lines) [] 'A'

/-- The vowel-group counting loop of `_count_syllables`. -/
def syllable_loop : List Char → Bool → ℕ
  | [], _ => 0
  | c :: rest, prevV =>
    let isV := ['a', 'e', 'i', 'o', 'u'].contains c
    (if isV && !prevV then 1 else 0) + syllable_loop rest isV

/-- `RhymeEngine._count_syllables`. -/
def count_syllables (w : List Char) : ℕ :=
  let w := lower w
  let n := syllable_loop w false
  let n := if ends_with w ['e'] && decide (1 < n) then n - 1 else n
  max 1 n

/-- `RhymeEngine._is_multi_syllabic_rhyme`. -/
def is_multi_syllabic_rhyme (w1 w2 : List Char) : Bool :=
  words_rhyme w1 w2 &&
    (decide (2 ≤ count_syllables w1) && decide (2 ≤ count_syllables w2))

/-- The positional character-matching loop of `_calculate_similarity`
(`for i in range(shorter): if word1[i] == word2[i]`). -/
def count_matches : List Char → List Char → ℕ
  | a :: as, b :: bs => (if a = b then 1 else 0) + count_matches as bs
  | _, _ => 0

/-- `RhymeEngine._calculate_similarity`. -/
def calculate_similarity (w1 w2 : List Char) : ℚ :=
  if w1 = w2 then 1
  else
    let longer := max w1.length w2.length
    if longer = 0 then 1
    else (count_matches w1 w2 : ℚ) / (longer : ℚ)

/-- `RhymeEngine._is_slant_rhyme`. -/
def is_slant_rhyme (w1 w2 : List Char) : Bool :=
  if words_rhyme w1 w2 then false
  else decide ((7 : ℚ) / 10 ≤ calculate_similarity w1 w2)

structure MultiEntry where
  line_index : ℕ
  line : List Char
  word1 : List Char
  word2 : List Char
  position : ℕ × ℕ
deriving DecidableEq

/-- Adjacent-pair scan of one line (`for i in range(len(words) - 1)`). -/
def multi_scan_words (li : ℕ) (line : List Char) : ℕ → List (List Char) → List MultiEntry
  | i, w1 :: w2 :: rest =>
    (if is_multi_syllabic_rhyme w1 w2 then
      [MultiEntry.mk li line w1 w2 (i, i + 1)] else []) ++
      multi_scan_words li line (i + 1) (w2 :: rest)
  | _, _ => []

def multi_scan_lines : ℕ → List (List Char) → List MultiEntry
  | _, [] => []
  | li, line :: rest =>
    multi_scan_words li line 0 (clean_words line) ++ multi_scan_lines (li + 1) rest

/-- `RhymeEngine._find_multi_syllabic_rhymes`. -/
def find_multi_syllabic_rhymes (lines : List (List Char)) : List MultiEntry :=
  multi_scan_lines 0 lines

structure SlantEntry where
  line_index : ℕ
  line : List Char
  word1 : List Char
  word2 : List Char
  position : ℕ × ℕ
  similarity : ℚ
deriving DecidableEq

def slant_scan_words (li : ℕ) (line : List Char) : ℕ → List (List Char) → List SlantEntry
  | i, w1 :: w2 :: rest =>
    (if is_slant_rhyme w1 w2 then
      [SlantEntry.mk li line w1 w2 (i, i + 1) (calculate_similarity w1 w2)] else []) ++
      slant_scan_words li line (i + 1) (w2 :: rest)
  | _, _ => []

def slant_scan_lines : ℕ → List (List Char) → List SlantEntry
  | _, [] => []
  | li, line :: rest =>
    slant_scan_words li line 0 (clean_words line) ++ slant_scan_lines (li + 1) rest

/-- `RhymeEngine._find_slant_rhymes`. -/
def find_slant_rhymes (lines : List (List Char)) : List SlantEntry :=
  slant_scan_lines 0 lines

structure Analysis where
  end_rhymes : EndRhymes
  internal_rhymes : InternalRhymes
  rhyme_density : ℚ
  rhyme_scheme : List Char
  multi_syllabic_rhymes : List MultiEntry
  slant_rhymes : List SlantEntry
  pattern : List Char
deriving DecidableEq

/-- `RhymeEngine.analyze_rhymes`, the public entry point. -/
def analyze_rhymes (text : List Char) : Analysis :=
  let lines := split_lines text
  Analysis.mk
    (analyze_end_rhymes lines)
    (analyze_internal_rhymes lines)
    (calculate_rhyme_density lines)
    (detect_rhyme_scheme lines)
    (find_multi_syllabic_rhymes lines)
    (find_slant_rhymes lines)
    (detect_rhyme_scheme lines)

/-- Division as Python performs it: raises (here `none`) on a zero divisor. -/
def safe_div (a b : ℚ) : Option ℚ := if b = 0 then none else some (a / b)

/-- Exception-aware `_analyze_end_rhymes`: the only fallible step is the
density division, reached when `len(lines) > 1`. -/
def analyze_end_rhymes? (lines : List (List Char)) : Option EndRhymes :=
  let lw := last_words lines
  let pairs := rhyme_pairs lw
  let groups := (build_groups pairs).map (fun kg => RhymeGroup.mk kg.1 kg.2)
  (if 1 < lines.length then
      safe_div (pairs.length : ℚ) (((lines.length : ℚ) * ((lines.length : ℚ) - 1)) / 2)
    else some 0).map (fun d => EndRhymes.mk groups pairs d)

/-- Exception-aware `_analyze_internal_rhymes`. -/
def analyze_internal_rhymes? (lines : List (List Char)) : Option InternalRhymes :=
  let entries := internal_entries_aux 0 lines
  let total : ℕ := (entries.map (fun e => e.rhymes.length)).sum
  let tw := total_words lines
  (if 1 < tw then safe_div (total : ℚ) (tw : ℚ) else some 0).map
    (fun d => InternalRhymes.mk entries d)

/-- Exception-aware `_calculate_rhyme_density`. -/
def calculate_rhyme_density? (lines : List (List Char)) : Option ℚ :=
  if lines.isEmpty then some 0
  else
    let cEnd := pair_counts (last_words lines)
    let cIn := lines.map (fun l => pair_counts (clean_words l))
    let totalR := cEnd.1 + (cIn.map (·.1)).sum
    let totalP := cEnd.2 + (cIn.map (·.2)).sum
    if totalP = 0 then some 0 else safe_div (totalR : ℚ) (totalP : ℚ)

/-- Python `chr n`, on codepoints: `chr` succeeds exactly for
`0 ≤ n ≤ 0x10FFFF = 1114111` and raises `ValueError` beyond (the argument
`ord(c) + 1` is never negative).  One-character strings are represented by
their codepoint, so `chr?` returns the codepoint itself on success. -/
def chr? (n : ℕ) : Option ℕ :=
  if n < 1114112 then some n else none

/-- Exception-aware labelling loop of `_detect_rhyme_scheme`: Python keeps
the previous end words and the label list separately and reads
`rhyme_scheme[j]`, which raises if `j` were out of range; after appending a
fresh label it immediately runs `current_letter = chr(ord(current_letter)
+ 1)`, which raises `ValueError` once the codepoint leaves the Unicode
range.  Labels are raw codepoints (`'A' = 65` onwards), since Python also
passes through surrogate codepoints that Lean's `Char` cannot represent. -/
def detect_scheme_aux? : List (List Char) → List (List Char) → List ℕ → ℕ → Option (List ℕ)
  | [], _, scheme, _ => some scheme
  | w :: rest, prev, scheme, letter =>
    match prev.findIdx? (fun p => words_rhyme w p) with
    | some j =>
      match scheme[j]? with
      | some c => detect_scheme_aux? rest (prev ++ [w]) (scheme ++ [c]) letter
      | none => none
    | none =>
      match chr? (letter + 1) with
      | some next => detect_scheme_aux? rest (prev ++ [w]) (scheme ++ [letter]) next
      | none => none

/-- Exception-aware `_detect_rhyme_scheme`; the returned scheme is the list
of label codepoints (`"A"` is `[65]`). -/
def detect_rhyme_scheme? (lines : List (List Char)) : Option (List ℕ) :=
  if lines.length < 2 then some ['A'.toNat]
  else detect_scheme_aux? (last_words lines) [] [] 'A'.toNat

/-- Exception-aware `_calculate_similarity`. -/
def calculate_similarity? (w1 w2 : List Char) : Option ℚ :=
  if w1 = w2 then some 1
  else
    let longer := max w1.length w2.length
    if longer = 0 then some 1
    else safe_div (count_matches w1 w2 : ℚ) (longer : ℚ)

/-- Exception-aware `_is_slant_rhyme`. -/
def is_slant_rhyme? (w1 w2 : List Char) : Option Bool :=
  if words_rhyme w1 w2 then some false
  else (calculate_similarity? w1 w2).map (fun s => decide ((7 : ℚ) / 10 ≤ s))

def slant_scan_words? (li : ℕ) (line : List Char) :
    ℕ → List (List Char) → Option (List SlantEntry)
  | i, w1 :: w2 :: rest => do
    let s ← is_slant_rhyme? w1 w2
    if s then do
      let sim ← calculate_similarity? w1 w2
      let tail ← slant_scan_words? li line (i + 1) (w2 :: rest)
      pure (SlantEntry.mk li line w1 w2 (i, i + 1) sim :: tail)
    else
      slant_scan_words? li line (i + 1) (w2 :: rest)
  | _, _ => pure []

def slant_scan_lines? : ℕ → List (List Char) → Option (List SlantEntry)
  | _, [] => pure []
  | li, line :: rest => do
    let here ← slant_scan_words? li line 0 (clean_words line)
    let there ← slant_scan_lines? (li + 1) rest
    pure (here ++ there)

/-- Exception-aware `_find_slant_rhymes`. -/
def find_slant_rhymes? (lines : List (List Char)) : Option (List SlantEntry) :=
  slant_scan_lines? 0 lines

/-- Result record of the exception-aware model: identical to `Analysis`
except that the two scheme strings are lists of label codepoints, matching
`detect_rhyme_scheme?`. -/
structure AnalysisCodes where
  end_rhymes : EndRhymes
  internal_rhymes : InternalRhymes
  rhyme_density : ℚ
  rhyme_scheme : List ℕ
  multi_syllabic_rhymes : List MultiEntry
  slant_rhymes : List SlantEntry
  pattern : List ℕ
deriving DecidableEq

/-- Exception-aware `analyze_rhymes`: every fallible subcomputation
(divisions, the `rhyme_scheme[j]` indexing, the `chr` letter increment) is
threaded through `Option`; `none` models an uncaught Python exception. -/
def analyze_rhymes? (text : List Char) : Option AnalysisCodes := do
  let lines := split_lines text
  let er ← analyze_end_rhymes? lines
  let ir ← analyze_internal_rhymes? lines
  let rd ← calculate_rhyme_density? lines
  let rs ← detect_rhyme_scheme? lines
  let ms := find_multi_syllabic_rhymes lines
  let sl ← find_slant_rhymes? lines
  let pat ← detect_rhyme_scheme? lines
  pure (AnalysisCodes.mk er ir rd rs ms sl pat)

/-- The input refuting the no-exception claim: 1114047 newline-terminated
lines, each holding the single word "xx".  Every line's end word is "xx",
`_words_rhyme("xx", "xx")` is false (equality guard), so each line receives
a fresh label; after the label `chr 0x10FFFF` is assigned, Python evaluates
`chr(0x110000)` and raises `ValueError`. -/
def xx_text : List Char := (List.replicate 1114047 "xx\n".toList).flatten

/-- Spec-side similarity for the refinement comparison of the slant metric:
the specification describes similarity as the length of the longest common
suffix run (contiguous matching characters counted from the ends, stopping
at the first mismatch) divided by the length of the longer word.  `suffix_run`
consumes the two reversed words. -/
def suffix_run : List Char → List Char → ℕ
  | a :: as, b :: bs => if a = b then 1 + suffix_run as bs else 0
  | _, _ => 0

/-- Spec-side similarity (see `suffix_run`); identical words score 1. -/
def spec_suffix_similarity (w1 w2 : List Char) : ℚ :=
  if w1 = w2 then 1
  else (suffix_run w1.reverse w2.reverse : ℚ) / ((max w1.length w2.length : ℕ) : ℚ)

/-! ## Theorems -/

/-- Bool-valued `List.any` only depends on the pointwise behaviour of the
predicate. -/
theorem any_congr_fun {α : Type} (l : List α) (f g : α → Bool) (h : ∀ x, f x = g x) :
    l.any f = l.any g := by
  induction l with
  | nil => rfl
  | cons x xs ih => simp only [List.any_cons, h x, ih]

/-- Lawful boolean equality is symmetric. -/
theorem beq_comm_eq {α : Type} [BEq α] [LawfulBEq α] (x y : α) : (x == y) = (y == x) := by
  by_cases h : x = y
  · simp [h]
  · simp [beq_eq_false_iff_ne, h, Ne.symm h]

/-- The rhyme-suffix-table check of `_words_rhyme` is symmetric in its words. -/
theorem patterns_match_comm (a b : List Char) : patterns_match b a = patterns_match a b := by
  unfold patterns_match
  refine any_congr_fun _ _ _ (fun pv => ?_)
  rw [Bool.and_comm (ends_with b pv.1)]
  refine congrArg _ (any_congr_fun _ _ _ (fun v => ?_))
  rw [Bool.and_comm]

/-- `_similar_ending_pattern` is symmetric in its endings. -/
theorem similar_ending_pattern_comm (e1 e2 : List Char) :
    similar_ending_pattern e2 e1 = similar_ending_pattern e1 e2 := by
  unfold similar_ending_pattern
  by_cases h : e1.length = e2.length
  · rw [if_pos h, if_pos h.symm, beq_comm_eq]
  · rw [if_neg h, if_neg (fun e => h e.symm)]

/-- `_words_rhyme` is symmetric: every one of its checks is invariant under
swapping the two words. -/
theorem words_rhyme_comm (w1 w2 : List Char) : words_rhyme w1 w2 = words_rhyme w2 w1 := by
  unfold words_rhyme
  by_cases h : w1 = w2
  · subst h; rfl
  · rw [if_neg h, if_neg (fun e => h e.symm)]
    simp only []
    rw [Bool.or_comm (ends_with (clean_word w2) (clean_word w1))]
    rw [patterns_match_comm (clean_word w1) (clean_word w2)]
    rw [Bool.and_comm (decide (3 ≤ (clean_word w2).length))]
    rw [similar_ending_pattern_comm (last_n 3 (clean_word w1)) (last_n 3 (clean_word w2))]
    rw [any_congr_fun [2, 3, 4]
      (fun n => decide (n ≤ (clean_word w2).length) && decide (n ≤ (clean_word w1).length) &&
        (last_n n (clean_word w2) == last_n n (clean_word w1)))
      (fun n => decide (n ≤ (clean_word w1).length) && decide (n ≤ (clean_word w2).length) &&
        (last_n n (clean_word w1) == last_n n (clean_word w2)))
      (fun n => by
        simp only []
        rw [Bool.and_comm (decide (n ≤ (clean_word w2).length)), beq_comm_eq])]

/-- Claim C7: the rhyme relation is symmetric — for every pair of words
`(a, b)`, `rhymes(a, b)` returns the same boolean as `rhymes(b, a)`. -/
theorem c7_words_rhyme_symmetric (a b : List Char) : words_rhyme a b = words_rhyme b a :=
  words_rhyme_comm a b

/-- Counterexample to claim C1: on `["cat sat", "hat bat", "dog ran"]` the
rhyme scheme detector does not return `"AAB"`. -/
theorem c1_scheme_aab_cex :
    detect_rhyme_scheme ["cat sat".toList, "hat bat".toList, "dog ran".toList] ≠ "AAB".toList := by
  decide

/-- Claim C1 (amended): on `["cat sat", "hat bat", "dog ran"]` the detector
returns `"AAA"`: "sat"/"bat" rhyme, and "ran" also rhymes with "sat" under
the last-3 vowel/consonant ending-pattern heuristic (both are CVC), so all
three lines share the label `A`. -/
theorem c1_scheme_aaa :
    words_rhyme "sat".toList "bat".toList = true ∧
    words_rhyme "ran".toList "sat".toList = true ∧
    detect_rhyme_scheme ["cat sat".toList, "hat bat".toList, "dog ran".toList] = "AAA".toList := by
  decide

/-- Claim C10: the `pattern` field of the analysis result always equals the
`rhyme_scheme` field (both are computed by `_detect_rhyme_scheme` on the
same lines). -/
theorem c10_pattern_eq_rhyme_scheme (text : List Char) :
    (analyze_rhymes text).pattern = (analyze_rhymes text).rhyme_scheme :=
  rfl

/-- Counterexample to claim C5: on the empty string the rhyme scheme field
is `"A"`, not the empty string. -/
theorem c5_empty_scheme_cex :
    (analyze_rhymes "".toList).rhyme_scheme = "A".toList ∧ "A".toList ≠ "".toList := by
  decide

/-- Claim C5 (amended): on the empty string `analyze_rhymes` returns a
result with empty rhyme-group, rhyme-pair, internal, multi-syllabic and
slant lists, all densities `0`, no exception (the exception-aware model
returns `some`), and rhyme scheme `"A"` — not an empty marker, because
`_detect_rhyme_scheme` returns `"A"` for fewer than two lines. -/
theorem c5_empty_analysis :
    (analyze_rhymes "".toList).end_rhymes.rhyme_groups = [] ∧
    (analyze_rhymes "".toList).end_rhymes.rhyme_pairs = [] ∧
    (analyze_rhymes "".toList).end_rhymes.rhyme_density = 0 ∧
    (analyze_rhymes "".toList).internal_rhymes.internal_rhyme_pairs = [] ∧
    (analyze_rhymes "".toList).internal_rhymes.internal_rhyme_density = 0 ∧
    (analyze_rhymes "".toList).rhyme_density = 0 ∧
    (analyze_rhymes "".toList).rhyme_scheme = "A".toList ∧
    (analyze_rhymes "".toList).multi_syllabic_rhymes = [] ∧
    (analyze_rhymes "".toList).slant_rhymes = [] ∧
    analyze_rhymes? "".toList =
      some (AnalysisCodes.mk (EndRhymes.mk [] [] 0) (InternalRhymes.mk [] 0) 0
        ['A'.toNat] [] [] ['A'.toNat]) := by
  decide

/-- The positional matching loop of `_calculate_similarity` counts exactly
the aligned positions of the two words holding equal characters. -/
theorem count_matches_eq_zip_countP (w1 w2 : List Char) :
    count_matches w1 w2 = (w1.zip w2).countP (fun p => p.1 == p.2) := by
  induction w1 generalizing w2 with
  | nil => cases w2 <;> rfl
  | cons a as ih =>
    cases w2 with
    | nil => rfl
    | cons b bs =>
      by_cases h : a = b <;>
        simp [count_matches, List.countP_cons, ih bs, h, Nat.add_comm]

/-- Counterexample to claim C2: on the pair ("at", "cat") the code returns
similarity `0`, while the longest-common-suffix-run formula of the spec
gives `2/3` (the common suffix run "at" has length 2, the longer word has
length 3). -/
theorem c2_suffix_run_cex :
    calculate_similarity "at".toList "cat".toList = 0 ∧
    spec_suffix_similarity "at".toList "cat".toList = 2 / 3 ∧ (0 : ℚ) ≠ 2 / 3 := by
  have h1 : calculate_similarity "at".toList "cat".toList =
      (count_matches "at".toList "cat".toList : ℚ) /
        ((max ("at".toList).length ("cat".toList).length : ℕ) : ℚ) := by
    rw [calculate_similarity, if_neg (by decide), if_neg (by decide)]
  have h2 : count_matches "at".toList "cat".toList = 0 := by decide
  have h3 : spec_suffix_similarity "at".toList "cat".toList =
      (suffix_run ("at".toList).reverse ("cat".toList).reverse : ℚ) /
        ((max ("at".toList).length ("cat".toList).length : ℕ) : ℚ) := by
    rw [spec_suffix_similarity, if_neg (by decide)]
  have h4 : suffix_run ("at".toList).reverse ("cat".toList).reverse = 2 := by decide
  have h5 : (max ("at".toList).length ("cat".toList).length : ℕ) = 3 := by decide
  rw [h1, h2, h3, h4, h5]
  norm_num

/-- Claim C2 (amended): for distinct words the similarity score equals the
number of aligned positions (counted from the start of the words, over the
length of the shorter word) holding equal characters, divided by the length
of the longer word — a positional prefix-aligned count, not a suffix run. -/
theorem c2_similarity_prefix_matches (w1 w2 : List Char) (h : w1 ≠ w2) :
    calculate_similarity w1 w2 =
      (((w1.zip w2).countP (fun p => p.1 == p.2) : ℕ) : ℚ) /
        ((max w1.length w2.length : ℕ) : ℚ) := by
  rw [calculate_similarity, if_neg h]
  simp only []
  by_cases h0 : max w1.length w2.length = 0
  · exfalso
    apply h
    have h1 : w1.length = 0 := by omega
    have h2 : w2.length = 0 := by omega
    rw [List.length_eq_zero.mp h1, List.length_eq_zero.mp h2]
  · rw [if_neg h0, count_matches_eq_zip_countP]

/-- Witness for C2's amended theorem at the concrete pair
("running", "runner"). -/
theorem c2_similarity_prefix_matches_witness :
    "running".toList ≠ "runner".toList ∧
    calculate_similarity "running".toList "runner".toList =
      ((("running".toList.zip "runner".toList).countP (fun p => p.1 == p.2) : ℕ) : ℚ) /
        ((max ("running".toList).length ("runner".toList).length : ℕ) : ℚ) :=
  ⟨by decide, c2_similarity_prefix_matches _ _ (by decide)⟩

/-- The total internal-rhyme count accumulated over the produced entries
equals the sum over all lines of each line's internal rhyming-pair count
(lines without internal rhymes contribute zero entries and zero pairs). -/
theorem internal_total_eq (k : ℕ) (lines : List (List Char)) :
    ((internal_entries_aux k lines).map (fun e => e.rhymes.length)).sum =
      (lines.map (fun l => (rhyme_pairs (clean_words l)).length)).sum := by
  induction lines generalizing k with
  | nil => rfl
  | cons line rest ih =>
    simp only [internal_entries_aux, List.map_cons, List.sum_cons]
    by_cases h : (rhyme_pairs (clean_words line)).isEmpty
    · have h0 : (rhyme_pairs (clean_words line)).length = 0 := by
        rw [List.isEmpty_iff.mp h]; rfl
      simp [h, h0, ih]
    · simp [h, ih]

/-- Counterexample to claim C3: the internal rhyme density of the single
line "bat cat hat mat" is `3/2`, which lies outside `[0, 1]` (the four
words give six rhyming pairs against four words). -/
theorem c3_density_unit_interval_cex :
    (analyze_internal_rhymes ["bat cat hat mat".toList]).internal_rhyme_density = 3 / 2 ∧
    ¬ (analyze_internal_rhymes ["bat cat hat mat".toList]).internal_rhyme_density ≤ 1 := by
  have hd : (analyze_internal_rhymes ["bat cat hat mat".toList]).internal_rhyme_density =
      if 1 < total_words ["bat cat hat mat".toList] then
        ((((internal_entries_aux 0 ["bat cat hat mat".toList]).map
            (fun e => e.rhymes.length)).sum : ℕ) : ℚ) /
          (total_words ["bat cat hat mat".toList] : ℚ)
      else 0 := rfl
  have h1 : (((internal_entries_aux 0 ["bat cat hat mat".toList]).map
      (fun e => e.rhymes.length)).sum : ℕ) = 6 := by decide
  have h2 : total_words ["bat cat hat mat".toList] = 4 := by decide
  rw [hd, h1, h2, if_pos (by norm_num)]
  norm_num

/-- Claim C3 (amended): the internal rhyme density equals the count of
rhyming unordered word pairs within the same line, summed over all lines,
divided by the total word count, whenever that count is at least 2 (and is
`0` otherwise); the value is always nonnegative but can exceed 1, so it
does not always lie in `[0, 1]`. -/
theorem c3_internal_density_formula (lines : List (List Char)) :
    (2 ≤ total_words lines →
      (analyze_internal_rhymes lines).internal_rhyme_density =
        (((lines.map (fun l => (rhyme_pairs (clean_words l)).length)).sum : ℕ) : ℚ) /
          (total_words lines : ℚ)) ∧
    (total_words lines < 2 →
      (analyze_internal_rhymes lines).internal_rhyme_density = 0) ∧
    0 ≤ (analyze_internal_rhymes lines).internal_rhyme_density := by
  have hd : (analyze_internal_rhymes lines).internal_rhyme_density =
      if 1 < total_words lines then
        ((((internal_entries_aux 0 lines).map (fun e => e.rhymes.length)).sum : ℕ) : ℚ) /
          (total_words lines : ℚ)
      else 0 := rfl
  rw [hd]
  refine ⟨fun h => ?_, fun h => ?_, ?_⟩
  · rw [if_pos (by omega), internal_total_eq]
  · rw [if_neg (by omega)]
  · split
    · exact div_nonneg (Nat.cast_nonneg _) (Nat.cast_nonneg _)
    · exact le_refl 0

/-- Witness for C3's amended theorem at the concrete line "bat cat". -/
theorem c3_internal_density_formula_witness :
    2 ≤ total_words ["bat cat".toList] ∧
    (analyze_internal_rhymes ["bat cat".toList]).internal_rhyme_density =
      (((["bat cat".toList].map (fun l => (rhyme_pairs (clean_words l)).length)).sum : ℕ) : ℚ) /
        (total_words ["bat cat".toList] : ℚ) :=
  ⟨by decide, (c3_internal_density_formula _).1 (by decide)⟩

/-- Claim C6: for at least two lines the end-rhyme density is the number of
rhyming unordered pairs among line-ending words divided by the number of
unordered pairs among all `L` lines, `L.choose 2 = L*(L-1)/2`; with fewer
than two lines it is `0` and the division is never reached. -/
theorem c6_end_density_formula (lines : List (List Char)) :
    (2 ≤ lines.length →
      (analyze_end_rhymes lines).rhyme_density =
        ((rhyme_pairs (last_words lines)).length : ℚ) / ((lines.length.choose 2 : ℕ) : ℚ)) ∧
    (lines.length < 2 → (analyze_end_rhymes lines).rhyme_density = 0) := by
  have hd : (analyze_end_rhymes lines).rhyme_density =
      if 1 < lines.length then
        ((rhyme_pairs (last_words lines)).length : ℚ) /
          (((lines.length : ℚ) * ((lines.length : ℚ) - 1)) / 2)
      else 0 := rfl
  rw [hd]
  constructor
  · intro h
    rw [if_pos (by omega)]
    congr 1
    rw [Nat.cast_choose_two]
  · intro h
    rw [if_neg (by omega)]

/-- Witness for C6 at the concrete three lines "done" / "ne" / "aka". -/
theorem c6_end_density_formula_witness :
    2 ≤ (["done".toList, "ne".toList, "aka".toList] : List (List Char)).length ∧
    (analyze_end_rhymes ["done".toList, "ne".toList, "aka".toList]).rhyme_density =
      ((rhyme_pairs (last_words ["done".toList, "ne".toList, "aka".toList])).length : ℚ) /
        (((["done".toList, "ne".toList, "aka".toList] : List (List Char)).length.choose 2 : ℕ) : ℚ) :=
  ⟨by decide, (c6_end_density_formula _).1 (by decide)⟩

/-- Counterexample to claim C4: the three lines "done" / "ne" / "aka" give
the pairs (done, ne) and (done, aka), both filed under the key "one" taken
from the first word — so the group "one" holds "ne" and "aka", two distinct
words that do not rhyme: grouping by key performs no pairwise check. -/
theorem c4_pairwise_rhyme_cex :
    (analyze_end_rhymes ["done".toList, "ne".toList, "aka".toList]).rhyme_groups =
      [RhymeGroup.mk "one".toList ["done".toList, "ne".toList, "aka".toList]] ∧
    "ne".toList ≠ "aka".toList ∧
    words_rhyme "ne".toList "aka".toList = false := by
  decide

/-- Appending a word only when absent preserves distinctness. -/
theorem insert_word_nodup (ws : List (List Char)) (w : List Char) (h : ws.Nodup) :
    (insert_word ws w).Nodup := by
  unfold insert_word
  split
  · exact h
  · rename_i hm
    simp [List.nodup_append, h, hm]

/-- One dict-update step of the grouping loop keeps every group duplicate-free. -/
theorem update_groups_nodup (gs : List (List Char × List (List Char)))
    (key w1 w2 : List Char) (h : ∀ g ∈ gs, g.2.Nodup) :
    ∀ g ∈ update_groups gs key w1 w2, g.2.Nodup := by
  induction gs with
  | nil =>
    intro g hg
    simp only [update_groups, List.mem_singleton] at hg
    subst hg
    exact insert_word_nodup _ _ (insert_word_nodup _ _ List.nodup_nil)
  | cons p rest ih =>
    intro g hg
    rw [show update_groups (p :: rest) key w1 w2 =
        (if p.1 = key then (p.1, insert_word (insert_word p.2 w1) w2) :: rest
         else p :: update_groups rest key w1 w2) from by
      cases p; rfl] at hg
    split at hg
    · rcases List.mem_cons.mp hg with hg | hg
      · subst hg
        exact insert_word_nodup _ _ (insert_word_nodup _ _ (h p (List.mem_cons_self _ _)))
      · exact h g (List.mem_cons_of_mem _ hg)
    · rcases List.mem_cons.mp hg with hg | hg
      · subst hg
        exact h g (List.mem_cons_self _ _)
      · exact ih (fun g' hg' => h g' (List.mem_cons_of_mem _ hg')) g hg

/-- Invariant of the whole grouping fold: starting from duplicate-free
groups, every produced group stays duplicate-free. -/
theorem build_groups_loop_nodup (pairs : List EndPair) :
    ∀ gs : List (List Char × List (List Char)), (∀ g ∈ gs, g.2.Nodup) →
      ∀ g ∈ pairs.foldl
        (fun gs p => update_groups gs (get_rhyme_key p.2.2.1) p.2.2.1 p.2.2.2) gs,
        g.2.Nodup := by
  induction pairs with
  | nil => intro gs h g hg; exact h g hg
  | cons p ps ih =>
    intro gs h g hg
    exact ih _ (update_groups_nodup _ _ _ _ h) g hg

/-- Claim C4 (amended): each rhyme group's word list contains no duplicates;
however, two distinct words in the same group need not rhyme with each
other — the grouping is keyed on the last three characters of each pair's
first word without any pairwise verification. -/
theorem c4_group_words_nodup (lines : List (List Char)) (g : RhymeGroup)
    (hg : g ∈ (analyze_end_rhymes lines).rhyme_groups) : g.words.Nodup := by
  have hdef : (analyze_end_rhymes lines).rhyme_groups =
      (build_groups (rhyme_pairs (last_words lines))).map
        (fun kg => RhymeGroup.mk kg.1 kg.2) := rfl
  rw [hdef] at hg
  rcases List.mem_map.mp hg with ⟨kg, hkg, hEq⟩
  rw [build_groups] at hkg
  have hnd := build_groups_loop_nodup _ [] (by intro g' hg'; cases hg') kg hkg
  cases hEq
  exact hnd

/-- Witness for C4's amended theorem on the concrete group built from the
lines "done" / "ne" / "aka". -/
theorem c4_group_words_nodup_witness :
    RhymeGroup.mk "one".toList ["done".toList, "ne".toList, "aka".toList] ∈
      (analyze_end_rhymes ["done".toList, "ne".toList, "aka".toList]).rhyme_groups ∧
    (RhymeGroup.mk "one".toList ["done".toList, "ne".toList, "aka".toList]).words.Nodup :=
  ⟨by decide,
    c4_group_words_nodup ["done".toList, "ne".toList, "aka".toList] _ (by decide)⟩

/-- Membership characterisation of the adjacent-pair scan of one line:
an entry arises exactly from a position `d` holding two consecutive words
that pass the multi-syllabic-rhyme predicate. -/
theorem multi_scan_words_mem (li : ℕ) (line : List Char) :
    ∀ (ws : List (List Char)) (i : ℕ) (e : MultiEntry),
      e ∈ multi_scan_words li line i ws ↔
        ∃ d w1 w2, ws[d]? = some w1 ∧ ws[d + 1]? = some w2 ∧
          is_multi_syllabic_rhyme w1 w2 = true ∧
          e = MultiEntry.mk li line w1 w2 (i + d, i + d + 1) := by
  intro ws
  induction ws with
  | nil =>
    intro i e
    constructor
    · intro h; cases h
    · rintro ⟨d, w1, w2, h1, -⟩; cases h1
  | cons u tail ih =>
    cases tail with
    | nil =>
      intro i e
      constructor
      · intro h; cases h
      · rintro ⟨d, w1, w2, h1, h2, -⟩
        cases d with
        | zero => cases h2
        | succ d' => cases h1
    | cons v rest =>
      intro i e
      constructor
      · intro h
        rcases List.mem_append.mp h with h | h
        · by_cases hm : is_multi_syllabic_rhyme u v
          · rw [if_pos hm] at h
            rcases List.mem_singleton.mp h with rfl
            refine ⟨0, u, v, by simp, by simp, hm, by simp⟩
          · rw [if_neg hm] at h
            cases h
        · rcases (ih (i + 1) e).mp h with ⟨d, w1, w2, h1, h2, hm, he⟩
          refine ⟨d + 1, w1, w2, ?_, ?_, hm, ?_⟩
          · rw [List.getElem?_cons_succ]; exact h1
          · rw [List.getElem?_cons_succ]; exact h2
          rw [he]
          have : i + 1 + d = i + (d + 1) := by omega
          rw [this]
      · rintro ⟨d, w1, w2, h1, h2, hm, he⟩
        cases d with
        | zero =>
          rw [List.getElem?_cons_zero] at h1
          rw [List.getElem?_cons_succ, List.getElem?_cons_zero] at h2
          cases h1; cases h2
          apply List.mem_append.mpr
          left
          rw [if_pos hm]
          rw [he]
          simp
        | succ d' =>
          rw [List.getElem?_cons_succ] at h1
          rw [List.getElem?_cons_succ] at h2
          apply List.mem_append.mpr
          right
          apply (ih (i + 1) e).mpr
          refine ⟨d', w1, w2, h1, h2, hm, ?_⟩
          rw [he]
          have : i + 1 + d' = i + (d' + 1) := by omega
          rw [this]

/-- Membership characterisation of the per-line multi-syllabic scan. -/
theorem multi_scan_lines_mem :
    ∀ (lines : List (List Char)) (k : ℕ) (e : MultiEntry),
      e ∈ multi_scan_lines k lines ↔
        ∃ li line, lines[li]? = some line ∧
          e ∈ multi_scan_words (k + li) line 0 (clean_words line) := by
  intro lines
  induction lines with
  | nil =>
    intro k e
    constructor
    · intro h; cases h
    · rintro ⟨li, line, h1, -⟩; cases h1
  | cons l rest ih =>
    intro k e
    constructor
    · intro h
      rcases List.mem_append.mp h with h | h
      · exact ⟨0, l, by simp, by simpa using h⟩
      · rcases (ih (k + 1) e).mp h with ⟨li, line, h1, h2⟩
        refine ⟨li + 1, line, by simpa using h1, ?_⟩
        have : k + 1 + li = k + (li + 1) := by omega
        rw [this] at h2
        exact h2
    · rintro ⟨li, line, h1, h2⟩
      apply List.mem_append.mpr
      cases li with
      | zero =>
        rw [List.getElem?_cons_zero] at h1
        cases h1
        left
        simpa using h2
      | succ li' =>
        rw [List.getElem?_cons_succ] at h1
        right
        apply (ih (k + 1) e).mpr
        refine ⟨li', line, h1, ?_⟩
        have : k + 1 + li' = k + (li' + 1) := by omega
        rw [this]
        exact h2

/-- Claim C9: a pair is flagged as a multi-syllabic rhyme iff the two words
sit at adjacent positions `i`, `i+1` of one (cleaned) line, `_words_rhyme`
accepts them, and each has at least two syllables; in particular an entry
whose words are the monosyllabic "cat"/"hat" can never be produced. -/
theorem c9_multi_syllabic_characterisation (lines : List (List Char)) :
    (∀ e : MultiEntry, e ∈ find_multi_syllabic_rhymes lines ↔
      ∃ li line i w1 w2,
        lines[li]? = some line ∧
        (clean_words line)[i]? = some w1 ∧ (clean_words line)[i + 1]? = some w2 ∧
        words_rhyme w1 w2 = true ∧
        2 ≤ count_syllables w1 ∧ 2 ≤ count_syllables w2 ∧
        e = MultiEntry.mk li line w1 w2 (i, i + 1)) ∧
    (∀ e ∈ find_multi_syllabic_rhymes lines,
      ¬ (e.word1 = "cat".toList ∧ e.word2 = "hat".toList)) := by
  have hchar : ∀ e : MultiEntry, e ∈ find_multi_syllabic_rhymes lines ↔
      ∃ li line i w1 w2,
        lines[li]? = some line ∧
        (clean_words line)[i]? = some w1 ∧ (clean_words line)[i + 1]? = some w2 ∧
        words_rhyme w1 w2 = true ∧
        2 ≤ count_syllables w1 ∧ 2 ≤ count_syllables w2 ∧
        e = MultiEntry.mk li line w1 w2 (i, i + 1) := by
    intro e
    rw [find_multi_syllabic_rhymes, multi_scan_lines_mem]
    constructor
    · rintro ⟨li, line, h1, h2⟩
      rcases (multi_scan_words_mem (0 + li) line (clean_words line) 0 e).mp h2 with
        ⟨d, w1, w2, hw1, hw2, hm, he⟩
      have hm' : words_rhyme w1 w2 = true ∧
          2 ≤ count_syllables w1 ∧ 2 ≤ count_syllables w2 := by
        rw [is_multi_syllabic_rhyme] at hm
        simpa using hm
      exact ⟨li, line, d, w1, w2, h1, hw1, hw2, hm'.1, hm'.2.1, hm'.2.2,
        by simp [he, Nat.zero_add]⟩
    · rintro ⟨li, line, i, w1, w2, h1, hw1, hw2, hr, hs1, hs2, he⟩
      refine ⟨li, line, h1, ?_⟩
      apply (multi_scan_words_mem (0 + li) line (clean_words line) 0 e).mpr
      refine ⟨i, w1, w2, hw1, hw2, ?_, ?_⟩
      · rw [is_multi_syllabic_rhyme]
        simp [hr, hs1, hs2]
      · simp [he, Nat.zero_add]
  refine ⟨hchar, ?_⟩
  intro e he hcat
  rcases (hchar e).mp he with ⟨li, line, i, w1, w2, -, -, -, -, hs1, -, heq⟩
  rw [heq] at hcat
  have hw1 : w1 = "cat".toList := hcat.1
  rw [hw1] at hs1
  exact absurd hs1 (by decide)

/-- Witness for C9: the adjacent pair ("okay", "anyway") of the line
"okay anyway" is flagged, via the backward direction of the
characterisation. -/
theorem c9_multi_syllabic_characterisation_witness :
    MultiEntry.mk 0 "okay anyway".toList "okay".toList "anyway".toList (0, 1) ∈
      find_multi_syllabic_rhymes ["okay anyway".toList] :=
  ((c9_multi_syllabic_characterisation ["okay anyway".toList]).1 _).mpr
    ⟨0, "okay anyway".toList, 0, "okay".toList, "anyway".toList,
      by decide, by decide, by decide, by decide, by decide, by decide, rfl⟩

/-- The density division of `_analyze_end_rhymes` is guarded by
`len(lines) > 1`, so its divisor is nonzero and the function never raises. -/
theorem analyze_end_rhymes_eq (lines : List (List Char)) :
    analyze_end_rhymes? lines = some (analyze_end_rhymes lines) := by
  rw [analyze_end_rhymes?, analyze_end_rhymes]
  split
  · rename_i h
    have hL : (1 : ℚ) < (lines.length : ℚ) := by exact_mod_cast h
    have hden : ((lines.length : ℚ) * ((lines.length : ℚ) - 1)) / 2 ≠ 0 := by
      have : (0 : ℚ) < ((lines.length : ℚ) * ((lines.length : ℚ) - 1)) / 2 :=
        div_pos (mul_pos (by linarith) (by linarith)) two_pos
      exact ne_of_gt this
    rw [safe_div, if_neg hden]
    rfl
  · rfl

/-- The density division of `_analyze_internal_rhymes` is guarded by
`total_words > 1`, so the function never raises. -/
theorem analyze_internal_rhymes_eq (lines : List (List Char)) :
    analyze_internal_rhymes? lines = some (analyze_internal_rhymes lines) := by
  rw [analyze_internal_rhymes?, analyze_internal_rhymes]
  split
  · rename_i h
    have hden : (total_words lines : ℚ) ≠ 0 := Nat.cast_ne_zero.mpr (by omega)
    rw [safe_div, if_neg hden]
    rfl
  · rfl

/-- `_calculate_rhyme_density` guards its division by `total_possible != 0`
and never raises. -/
theorem calculate_rhyme_density_eq (lines : List (List Char)) :
    calculate_rhyme_density? lines = some (calculate_rhyme_density lines) := by
  rw [calculate_rhyme_density?, calculate_rhyme_density]
  split
  · rfl
  · dsimp only
    split
    · rfl
    · rename_i h
      have hden : ((((pair_counts (last_words lines)).2 +
          ((lines.map (fun l => pair_counts (clean_words l))).map (·.2)).sum : ℕ)) : ℚ) ≠ 0 :=
        Nat.cast_ne_zero.mpr h
      rw [safe_div, if_neg hden]

/-- `_calculate_similarity` guards its division by `longer == 0` and never
raises. -/
theorem calculate_similarity_eq (w1 w2 : List Char) :
    calculate_similarity? w1 w2 = some (calculate_similarity w1 w2) := by
  rw [calculate_similarity?, calculate_similarity]
  split
  · rfl
  · dsimp only
    split
    · rfl
    · rename_i h0
      have hden : ((max w1.length w2.length : ℕ) : ℚ) ≠ 0 := Nat.cast_ne_zero.mpr h0
      rw [safe_div, if_neg hden]

/-- `_is_slant_rhyme` never raises. -/
theorem is_slant_rhyme_eq (w1 w2 : List Char) :
    is_slant_rhyme? w1 w2 = some (is_slant_rhyme w1 w2) := by
  rw [is_slant_rhyme?, is_slant_rhyme]
  split
  · rfl
  · rw [calculate_similarity_eq]
    rfl

/-- The per-line slant scan never raises. -/
theorem slant_scan_words_eq (li : ℕ) (line : List Char) :
    ∀ (ws : List (List Char)) (i : ℕ),
      slant_scan_words? li line i ws = some (slant_scan_words li line i ws) := by
  intro ws
  induction ws with
  | nil => intro i; rfl
  | cons u tail ih =>
    cases tail with
    | nil => intro i; rfl
    | cons v rest =>
      intro i
      rw [slant_scan_words?, slant_scan_words]
      rw [is_slant_rhyme_eq]
      by_cases hs : is_slant_rhyme u v
      · simp only [hs, Option.some_bind, if_pos, if_true]
        rw [calculate_similarity_eq, ih (i + 1)]
        rfl
      · simp only [hs, Option.some_bind, if_false]
        rw [ih (i + 1)]
        rfl

/-- The slant scan over all lines never raises. -/
theorem slant_scan_lines_eq :
    ∀ (lines : List (List Char)) (k : ℕ),
      slant_scan_lines? k lines = some (slant_scan_lines k lines) := by
  intro lines
  induction lines with
  | nil => intro k; rfl
  | cons l rest ih =>
    intro k
    rw [slant_scan_lines?, slant_scan_lines]
    rw [slant_scan_words_eq, ih (k + 1)]
    rfl

/-- Success side of the letter budget: as long as the current letter
codepoint plus the number of remaining end words stays within the Unicode
range, the labelling loop never fails — neither at the (always in-range)
`rhyme_scheme[j]` lookup nor at the `chr` increment. -/
theorem scheme_aux_isSome (ws : List (List Char)) :
    ∀ (prev : List (List Char)) (scheme : List ℕ) (letter : ℕ),
      prev.length = scheme.length → letter + ws.length ≤ 1114111 →
      (detect_scheme_aux? ws prev scheme letter).isSome = true := by
  induction ws with
  | nil => intro prev scheme letter _ _; rfl
  | cons w rest ih =>
    intro prev scheme letter hlen hbound
    rw [detect_scheme_aux?]
    cases hf : prev.findIdx? (fun p => words_rhyme w p) with
    | some j =>
      have hj : j < prev.length := (List.findIdx?_eq_some_iff_findIdx_eq.mp hf).1
      have hj' : j < scheme.length := hlen ▸ hj
      dsimp only
      rw [List.getElem?_eq_getElem hj']
      dsimp only
      apply ih
      · simp [hlen]
      · simp only [List.length_cons] at hbound
        omega
    | none =>
      have hc : chr? (letter + 1) = some (letter + 1) := by
        rw [chr?, if_pos]
        simp only [List.length_cons] at hbound
        omega
      dsimp only
      rw [hc]
      dsimp only
      apply ih
      · simp [hlen]
      · simp only [List.length_cons] at hbound
        omega

/-- Failure side: on words that rhyme with nothing previously seen (here
repeated "xx", which never rhymes with itself), every step assigns a fresh
label, and once the letter budget is exhausted the `chr` increment raises. -/
theorem scheme_aux_xx_none :
    ∀ (k : ℕ) (letter : ℕ) (prev : List (List Char)) (scheme : List ℕ),
      1 ≤ k → 1114112 ≤ letter + k →
      (∀ w ∈ prev, words_rhyme "xx".toList w = false) →
      detect_scheme_aux? (List.replicate k ("xx".toList)) prev scheme letter = none := by
  intro k
  induction k with
  | zero => intro letter prev scheme h1 _ _; omega
  | succ k ih =>
    intro letter prev scheme _ hbound hprev
    rw [List.replicate_succ, detect_scheme_aux?]
    have hf : prev.findIdx? (fun p => words_rhyme "xx".toList p) = none := by
      rw [List.findIdx?_eq_none_iff]
      exact hprev
    rw [hf]
    dsimp only
    by_cases hl : letter + 1 < 1114112
    · rw [chr?, if_pos hl]
      dsimp only
      apply ih
      · omega
      · omega
      · intro w hw
        rcases List.mem_append.mp hw with hw | hw
        · exact hprev w hw
        · rcases List.mem_singleton.mp hw with rfl
          decide
    · rw [chr?, if_neg hl]

/-- Each line "xx" contributes itself as its cleaned end word. -/
theorem last_words_replicate_xx (n : ℕ) :
    last_words (List.replicate n ("xx".toList)) = List.replicate n ("xx".toList) := by
  induction n with
  | zero => rfl
  | succ n ih =>
    have h : ((split_words ("xx".toList)).getLast?).map clean_word = some ("xx".toList) := rfl
    simp only [List.replicate_succ, last_words, List.filterMap_cons] at ih ⊢
    rw [h]
    rw [ih]

/-- Splitting the concatenation of `n` copies of "xx\n" at newlines gives
`n` copies of "xx" plus a final empty piece. -/
theorem splitOn_xx (n : ℕ) :
    ((List.replicate n ("xx\n".toList)).flatten).splitOn '\n' =
      List.replicate n ("xx".toList) ++ [[]] := by
  induction n with
  | zero => rfl
  | succ n ih =>
    rw [List.replicate_succ, List.flatten_cons]
    show (('x' :: 'x' :: '\n' :: []) ++ (List.replicate n ("xx\n".toList)).flatten).splitOn '\n' = _
    rw [List.splitOn] at ih ⊢
    simp only [List.cons_append, List.nil_append]
    rw [List.splitOnP_cons, List.splitOnP_cons, List.splitOnP_cons]
    rw [show (('x' : Char) == '\n') = false from rfl]
    rw [show (('\n' : Char) == '\n') = true from rfl]
    simp only [Bool.false_eq_true, if_false, if_true]
    rw [ih]
    simp [List.replicate_succ]

/-- The tokenizer turns `xx_text` into 1114047 lines "xx". -/
theorem split_lines_xx :
    split_lines xx_text = List.replicate 1114047 ("xx".toList) := by
  rw [xx_text, split_lines, splitOn_xx]
  rw [List.map_append, List.map_replicate]
  rw [show strip_ws ("xx".toList) = "xx".toList from rfl]
  rw [show (([[]] : List (List Char)).map strip_ws) = [[]] from rfl]
  rw [List.filter_append]
  rw [List.filter_replicate_of_pos (by decide)]
  rw [show (([[]] : List (List Char)).filter (fun l => !l.isEmpty)) = [] from rfl]
  exact List.append_nil _

/-- Counterexample to claim C8: on the input of 1114047 lines "xx" the
public entry point raises — in the exception-aware model `analyze_rhymes?`
returns `none`, because after 1114047 fresh rhyme labels the scheme
detector evaluates `chr(0x110000)`, which raises `ValueError`. -/
theorem c8_chr_value_error_cex : analyze_rhymes? xx_text = none := by
  rw [analyze_rhymes?]
  simp only [split_lines_xx, analyze_end_rhymes_eq, analyze_internal_rhymes_eq,
    calculate_rhyme_density_eq, Option.some_bind]
  rw [detect_rhyme_scheme?]
  simp only [List.length_replicate]
  rw [if_neg (by norm_num)]
  rw [last_words_replicate_xx]
  rw [scheme_aux_xx_none 1114047 'A'.toNat [] [] (by norm_num) (by decide)
    (fun w hw => absurd hw (List.not_mem_nil w))]
  rfl

/-- Claim C8 (amended): the public entry point raises no exception for
every input with fewer than 1114047 non-blank lines — divisions and the
`rhyme_scheme[j]` lookup never fail, and below that line count the scheme
letter `chr(ord(c) + 1)` stays within the Unicode range; the unrestricted
claim is false, since 1114047 mutually non-rhyming end words exhaust the
letter range and `chr` raises `ValueError`. -/
theorem c8_no_exception_below_letter_budget (text : List Char)
    (h : (split_lines text).length < 1114047) :
    (analyze_rhymes? text).isSome = true := by
  rw [analyze_rhymes?]
  have hs : (detect_rhyme_scheme? (split_lines text)).isSome = true := by
    rw [detect_rhyme_scheme?]
    split
    · rfl
    · apply scheme_aux_isSome
      · rfl
      · have hle : (last_words (split_lines text)).length ≤ (split_lines text).length :=
          List.length_filterMap_le _ _
        have hA : 'A'.toNat = 65 := rfl
        omega
  obtain ⟨s, hs'⟩ := Option.isSome_iff_exists.mp hs
  simp only [analyze_end_rhymes_eq, analyze_internal_rhymes_eq, calculate_rhyme_density_eq,
    hs', find_slant_rhymes?, slant_scan_lines_eq, Option.some_bind]
  rfl

/-- Witness for C8's amended theorem at the concrete two-line input
"cat sat\nhat bat". -/
theorem c8_no_exception_below_letter_budget_witness :
    (split_lines "cat sat\nhat bat".toList).length < 1114047 ∧
    (analyze_rhymes? "cat sat\nhat bat".toList).isSome = true :=
  ⟨by decide, c8_no_exception_below_letter_budget _ (by decide)⟩
